import Mathlib

/-!
# Verification of the NetBox MCP server's cable-topology tracer

This file gives a shallow embedding, in Lean 4, of the cable-tracing
algorithms of the repository (module `src/tools/cables.py`, plus the
`get_devices` tool of `src/tools/devices.py`), and proves or refutes the
frozen behavioural claims about them.

The inventory that the Python code queries through `pynetbox` is modelled
as an explicit finite structure (`Inventory`): device names, termination
records (interfaces, patch-panel front ports, patch-panel rear ports) and
cables.  Duck-typed attribute access in Python (`hasattr` on `device`,
`rear_port`, `front_ports`) is modelled by the `kind` tag of a
termination record: interfaces, front ports and rear ports all expose a
`device` and a `name` attribute, only front ports expose `rear_port`, only
rear ports expose `front_ports`, and the `unknown` fallback exposes
neither.  `pynetbox` record equality compares endpoint and id, which the
model reflects by comparing whole records (ids are unique per inventory in
every instance used here).
-/

set_option linter.unusedVariables false

namespace NetboxMCP

/-- The kind of a cable termination record, as discriminated by the Python
code's `hasattr` checks. -/
inductive TKind where
  | iface
  | front
  | rear
  | unknown
deriving DecidableEq, Repr

/-- One termination record of the inventory: an interface, a patch-panel
front port, a patch-panel rear port, or an unclassifiable record.
`cable` is the id of the attached cable, if any; `rearPort` is the paired
rear port (meaningful for front ports); `frontPorts` are the paired front
ports (meaningful for rear ports).  Pairings and cables are stored by id
and resolved through the inventory, mirroring the object references of the
Python records. -/
structure TermRec where
  tid : Nat
  kind : TKind
  device : Option String
  name : Option String
  cable : Option Nat
  rearPort : Option Nat
  frontPorts : List Nat
deriving DecidableEq, Repr

/-- A cable: two groups of terminations (A side and B side), stored as
termination ids. -/
structure Cable where
  cid : Nat
  a_terminations : List Nat
  b_terminations : List Nat
deriving DecidableEq, Repr

/-- The finite inventory backing a trace request: the device names that
resolve, all termination records, and all cables. -/
structure Inventory where
  devices : List String
  terms : List TermRec
  cables : List Cable
deriving Repr

/-- The `device` attribute: interfaces, front ports and rear ports all
carry one; the combined Python guard
`hasattr(termination, "device") and termination.device` is
`attrDevice t = some d`. -/
def attrDevice (t : TermRec) : Option String :=
  if t.kind = TKind.unknown then none else t.device

/-- The value `termination.name if hasattr(termination, "name") else None`. -/
def attrName (t : TermRec) : Option String :=
  if t.kind = TKind.unknown then none else t.name

/-- Resolve a termination id against the inventory
(the Python code holds the record object directly). -/
def findTerm (inv : Inventory) (i : Nat) : Option TermRec :=
  inv.terms.find? (fun u => decide (u.tid = i))

/-- Resolve a cable id against the inventory. -/
def findCable (inv : Inventory) (i : Nat) : Option Cable :=
  inv.cables.find? (fun c => decide (c.cid = i))

/-- Resolve a list of termination ids, in order. -/
def resolveTerms (inv : Inventory) : List Nat → List TermRec
  | [] => []
  | i :: rest =>
    match findTerm inv i with
    | some t => t :: resolveTerms inv rest
    | none => resolveTerms inv rest

/-- Embeds `nb.dcim.interfaces.filter(device=device_name, cabled=True)`: the
interface records of a device that have a cable attached, in inventory
order. -/
def invInterfaces (inv : Inventory) (dname : String) : List TermRec :=
  inv.terms.filter
    (fun t => decide (t.kind = TKind.iface) && decide (t.device = some dname)
      && t.cable.isSome)

/-- Embeds `_get_connected_terminations` (cables.py:71-92): all terminations of
the same cable other than the given one.  Note the source guard
`if hasattr(cable, "a_terminations") and cable.a_terminations:` — when the
A-side group is the empty list the whole body is skipped and the function
returns `[]`. -/
def getConnectedTerminations (inv : Inventory) (t : TermRec) : List TermRec :=
  match t.cable with
  | none => []
  | some cid =>
    match findCable inv cid with
    | none => []
    | some c =>
      if c.a_terminations = [] then []
      else
        (resolveTerms inv (c.a_terminations ++ c.b_terminations)).filter
          (fun u => decide (u ≠ t))

/-- The internal patch-panel pairings of a termination, as appended by
`_get_next_terminations` (cables.py:114-119): for a front port with a
paired rear port, that rear port; for a rear port with paired front ports,
all of them. -/
def portPairings (inv : Inventory) (u : TermRec) : List TermRec :=
  if u.kind = TKind.front ∧ u.rearPort.isSome then
    match u.rearPort with
    | some rid =>
      match findTerm inv rid with
      | some rp => [rp]
      | none => []
    | none => []
  else if u.kind = TKind.rear ∧ u.frontPorts ≠ [] then
    resolveTerms inv u.frontPorts
  else []

/-- The per-element expansion of the loop body of
`_get_next_terminations`: each connected termination followed by its
pairings. -/
def nextSeq (inv : Inventory) : List TermRec → List TermRec
  | [] => []
  | u :: rest => u :: (portPairings inv u ++ nextSeq inv rest)

/-- Embeds `_get_next_terminations` (cables.py:94-121): the connected
terminations of `t`, each immediately followed by its internal
patch-panel pairings. -/
def getNextTerminations (inv : Inventory) (t : TermRec) : List TermRec :=
  if t.cable.isSome then nextSeq inv (getConnectedTerminations inv t) else []

/-! ## Bidirectional device-to-device search (`trace_devices_connection`) -/

/-- One step of a reconstructed path (the dict built at cables.py:200-206). -/
structure PathHop where
  device : String
  iface : Option String
  cable_id : Nat
  next_device : String
  next_interface : Option String
deriving DecidableEq, Repr

/-- Association-list lookup with Python-dict semantics (keys are unique). -/
def lookupA {α : Type} (m : List (String × α)) (k : String) : Option α :=
  match m with
  | [] => none
  | (k', v) :: rest => if k' = k then some v else lookupA rest k

/-- Association-list store with Python-dict semantics: overwrite an
existing key in place, append a fresh key at the end (dict insertion
order). -/
def setA {α : Type} (m : List (String × α)) (k : String) (v : α) :
    List (String × α) :=
  match m with
  | [] => [(k, v)]
  | (k', v') :: rest => if k' = k then (k, v) :: rest else (k', v') :: setA rest k v

/-- The two dictionaries one search direction mutates:
`visited: device → path_from_origin` and `path_to_origin: device → path`. -/
structure SearchState where
  visited : List (String × List PathHop)
  paths : List (String × List PathHop)
deriving DecidableEq, Repr

/-- Innermost body of `_expand_frontier` (cables.py:195-208): if the next
termination has a device not yet visited, record a one-hop extension of the
expanding device's path and add the device to the newly discovered list. -/
def discoverTerm (dname : String) (ifname : Option String) (cid : Nat)
    (basePath : List PathHop) (nt : TermRec) (st : SearchState)
    (acc : List String) : SearchState × List String :=
  match attrDevice nt with
  | none => (st, acc)
  | some nd =>
    if (lookupA st.visited nd).isSome then (st, acc)
    else
      let newPath := basePath ++ [⟨dname, ifname, cid, nd, attrName nt⟩]
      ({ st with paths := setA st.paths nd newPath }, acc ++ [nd])

/-- Loop over `next_terminations` in `_expand_frontier`. -/
def discoverList (dname : String) (ifname : Option String) (cid : Nat)
    (basePath : List PathHop) (nts : List TermRec) (st : SearchState)
    (acc : List String) : SearchState × List String :=
  match nts with
  | [] => (st, acc)
  | nt :: rest =>
    let p := discoverTerm dname ifname cid basePath nt st acc
    discoverList dname ifname cid basePath rest p.1 p.2

/-- Loop over `connected_terms` in `_expand_frontier`: each connected
termination is expanded once more through `_get_next_terminations` before
any device is recorded. -/
def processConnected (inv : Inventory) (dname : String) (ifname : Option String)
    (cid : Nat) (basePath : List PathHop) (terms : List TermRec)
    (st : SearchState) (acc : List String) : SearchState × List String :=
  match terms with
  | [] => (st, acc)
  | u :: rest =>
    let nts := getNextTerminations inv u
    let p := discoverList dname ifname cid basePath nts st acc
    processConnected inv dname ifname cid basePath rest p.1 p.2

/-- Loop over the cabled interfaces in `_expand_frontier`. -/
def processInterfaces (inv : Inventory) (dname : String)
    (basePath : List PathHop) (ifs : List TermRec) (st : SearchState)
    (acc : List String) : SearchState × List String :=
  match ifs with
  | [] => (st, acc)
  | i :: rest =>
    match i.cable with
    | none => processInterfaces inv dname basePath rest st acc
    | some cid =>
      let conn := getConnectedTerminations inv i
      let p := processConnected inv dname i.name cid basePath conn st acc
      processInterfaces inv dname basePath rest p.1 p.2

/-- Body of the outer loop of `_expand_frontier` (cables.py:176-208) for one
frontier device: skip if already visited or unresolvable, otherwise mark
visited (storing its path) and walk its cabled interfaces.  Within
`trace_devices_connection` every frontier member has an entry in
`path_to_origin`, so the `getD []` default is never exercised. -/
def expandDevice (inv : Inventory) (dname : String) (st : SearchState)
    (acc : List String) : SearchState × List String :=
  if (lookupA st.visited dname).isSome then (st, acc)
  else if inv.devices.contains dname then
    let basePath := (lookupA st.paths dname).getD []
    let st' := { st with visited := setA st.visited dname basePath }
    processInterfaces inv dname basePath (invInterfaces inv dname) st' acc
  else (st, acc)

/-- Loop over the frontier devices in `_expand_frontier`. -/
def expandFrontierAux (inv : Inventory) (ds : List String) (st : SearchState)
    (acc : List String) : SearchState × List String :=
  match ds with
  | [] => (st, acc)
  | d :: rest =>
    let p := expandDevice inv d st acc
    expandFrontierAux inv rest p.1 p.2

/-- Embeds `_expand_frontier` (cables.py:162-210): returns the newly discovered
device names and the mutated search state. -/
def expandFrontier (inv : Inventory) (ds : List String) (st : SearchState) :
    List String × SearchState :=
  let p := expandFrontierAux inv ds st []
  (p.2, p.1)

/-- Embeds `_find_intersection` (cables.py:212-226): the first device of the
first collection that is a key of the second. -/
def findIntersection (devs : List String)
    (visited : List (String × List PathHop)) : Option String :=
  devs.find? (fun d => (lookupA visited d).isSome)

/-- The result dict of `_build_complete_path` (cables.py:228-255). -/
structure CompletePath where
  path : List PathHop
  meetingDevice : String
  sourceHops : Nat
  targetHops : Nat
  totalHops : Int
deriving DecidableEq, Repr

/-- Embeds `_build_complete_path`: reads `source_visited[meeting_device]` and
`target_visited[meeting_device]`; a missing key raises `KeyError` in the
source, modelled as `none` (`trace_devices_connection` catches it and
returns its generic exception error). -/
def buildCompletePath (meeting : String)
    (sv tv : List (String × List PathHop)) : Option CompletePath :=
  match lookupA sv meeting, lookupA tv meeting with
  | some sp, some tp =>
    some ⟨sp ++ tp.reverse.drop 1, meeting, sp.length, tp.length,
      (sp.length : Int) + (tp.length : Int) - 1⟩
  | _, _ => none

/-- The possible returns of `trace_devices_connection`.  The embedding
models a server whose NetBox connection is available, so the
`"NetBox connection not available"` branch is omitted. -/
inductive TraceResult where
  | sourceNotFound (name : String)
  | targetNotFound (name : String)
  | pathFound (path : List PathHop) (meetingDevice : String)
      (sourceHops targetHops : Nat) (totalHops : Int)
  | noPathFound (sourceExplored targetExplored : Nat)
  | exceptionErr
deriving DecidableEq, Repr

/-- Lift a built path to the tool's success dict. -/
def pathResultOf (r : CompletePath) : TraceResult :=
  TraceResult.pathFound r.path r.meetingDevice r.sourceHops r.targetHops r.totalHops

/-- The iteration loop over `range(max_iterations)` in
`trace_devices_connection` (cables.py:301-324), with the post-loop
no-path return inlined at fuel exhaustion. -/
def traceLoop (inv : Inventory) : Nat → List String → List String →
    SearchState → SearchState → TraceResult
  | 0, _, _, sSt, tSt => TraceResult.noPathFound sSt.visited.length tSt.visited.length
  | Nat.succ fuel, sF, tF, sSt, tSt =>
    let p := expandFrontier inv sF sSt
    let newS := p.1
    let sSt' := p.2
    match findIntersection newS tSt.visited with
    | some m =>
      match buildCompletePath m sSt'.visited tSt.visited with
      | some r => pathResultOf r
      | none => TraceResult.exceptionErr
    | none =>
      let q := expandFrontier inv tF tSt
      let newT := q.1
      let tSt' := q.2
      match findIntersection newT sSt'.visited with
      | some m =>
        match buildCompletePath m sSt'.visited tSt'.visited with
        | some r => pathResultOf r
        | none => TraceResult.exceptionErr
      | none =>
        if newS.isEmpty && newT.isEmpty then
          TraceResult.noPathFound sSt'.visited.length tSt'.visited.length
        else traceLoop inv fuel newS newT sSt' tSt'

/-- Embeds `trace_devices_connection` (cables.py:261-328): resolve both device
names, then run the bidirectional search.  `max_iterations` is a Python
int; `range` of a non-positive bound runs zero iterations, hence
`Int.toNat`. -/
def traceDevicesConnection (inv : Inventory) (source target : String)
    (maxIterations : Int) : TraceResult :=
  if ¬ inv.devices.contains source then TraceResult.sourceNotFound source
  else if ¬ inv.devices.contains target then TraceResult.targetNotFound target
  else
    traceLoop inv maxIterations.toNat [source] [target]
      ⟨[], [(source, [])]⟩ ⟨[], [(target, [])]⟩

/-- The `total_hops` carried by a trace result, when it is a success. -/
def totalHopsOf : TraceResult → Option Int
  | TraceResult.pathFound _ _ _ _ t => some t
  | _ => none

/-! ## Topology tree tracer (`trace_from_interface`) -/

/-- A node of the topology tree built by `_build_tree_node`
(cables.py:356-363).  `depth` is `none` only for the literal single-node
tree returned for an uncabled interface (cables.py:422-428), whose dict
has no `depth` key. -/
inductive TreeNode where
  | node (device : Option String) (iface : Option String) (ntype : String)
      (cableId : Option Nat) (depth : Option Nat) (children : List TreeNode)

/-- The cycle-detection key of cables.py:349: the device name (or
`unknown` when the `device` attribute is missing or null), an underscore,
and the port name (or `unknown` when the `name` attribute is missing).
When the `name` attribute exists but is null, the f-string renders it as
the string `None`. -/
def termId (t : TermRec) : String :=
  (match attrDevice t with
   | some dn => dn
   | none => "unknown") ++ "_" ++
  (if t.kind = TKind.unknown then "unknown"
   else match t.name with
   | some n => n
   | none => "None")

/-- The node kind `"interface" if hasattr(termination, "device") else "port"`
(cables.py:359): interfaces, front ports and rear ports all expose
`device`. -/
def nodeType (t : TermRec) : String :=
  if t.kind = TKind.unknown then "port" else "interface"

/-- The child-building loop of `_build_tree_node` (cables.py:366-381):
for each connected termination, recurse into it and then into its
patch-panel pairings, threading the shared `visited_terminations` set and
appending the non-`None` results in order.  The sequence of recursion
targets is exactly `nextSeq` of the connected list. -/
def buildKids (go : TermRec → List String → Option TreeNode × List String) :
    List TermRec → List String → List TreeNode → List TreeNode × List String
  | [], visited, acc => (acc, visited)
  | u :: rest, visited, acc =>
    let p := go u visited
    buildKids go rest p.2 (acc ++ p.1.toList)

/-- Embeds `_build_tree_node` (cables.py:330-383), with explicit fuel.  The fuel
at every call equals `max_depth - current_depth`, so `fuel = 0` is exactly
the source's `current_depth >= max_depth` prune, and each recursive call
(at `current_depth + 1`) receives `fuel - 1`. -/
def buildTreeNodeF (inv : Inventory) :
    Nat → TermRec → List String → Nat → Option TreeNode × List String
  | 0, _, visited, _ => (none, visited)
  | Nat.succ fuel, t, visited, depth =>
    let tid := termId t
    if visited.contains tid then (none, visited)
    else
      let visited1 := visited ++ [tid]
      let p :=
        if t.cable.isSome then
          buildKids (fun u v => buildTreeNodeF inv fuel u v (depth + 1))
            (nextSeq inv (getConnectedTerminations inv t)) visited1 []
        else ([], visited1)
      (some (TreeNode.node (attrDevice t) (attrName t) (nodeType t) t.cable
        (some depth) p.1), p.2)

/-- Embeds `_build_tree_node(termination, visited, current_depth, max_depth)`:
`max_depth` is a Python int, compared against the current depth, hence the
`Int` subtraction for the fuel. -/
def buildTreeNode (inv : Inventory) (t : TermRec) (visited : List String)
    (depth : Nat) (maxDepth : Int) : Option TreeNode × List String :=
  buildTreeNodeF inv (maxDepth - (depth : Int)).toNat t visited depth

mutual

/-- Embeds `count_nodes` (cables.py:433-437). -/
def countNodes : TreeNode → Nat
  | TreeNode.node _ _ _ _ _ children => 1 + countNodesL children

/-- Sum of `count_nodes` over a child list. -/
def countNodesL : List TreeNode → Nat
  | [] => 0
  | c :: rest => countNodes c + countNodesL rest

end

mutual

/-- The non-falsy `cable_id`s of a tree in preorder (`count_cables`,
cables.py:439-445, collects them into a set; Python treats both `None`
and `0` as falsy). -/
def collectCables : TreeNode → List Nat
  | TreeNode.node _ _ _ cableId _ children =>
    (match cableId with
     | some c => if c = 0 then [] else [c]
     | none => []) ++ collectCablesL children

/-- Concatenation of `collectCables` over a child list. -/
def collectCablesL : List TreeNode → List Nat
  | [] => []
  | c :: rest => collectCables c ++ collectCablesL rest

end

/-- The possible returns of `trace_from_interface` (cables.py:389-463).
The connection-unavailable branch is again omitted.  `exceptionErr`
models the `except` branch; it is reached in particular when
`_build_tree_node` returns `None` and `count_nodes(None)` raises
`AttributeError`. -/
inductive TraceTreeResult where
  | interfaceNotFound (iname dname : String)
  | noCable (message : String) (tree : TreeNode)
  | ok (tree : TreeNode) (startDevice startInterface : String)
      (totalNodes totalCables : Nat) (maxDepth : Int)
  | exceptionErr

/-- Embeds `nb.dcim.interfaces.get(device=device_name, name=interface_name)`. -/
def findInterface (inv : Inventory) (dname iname : String) : Option TermRec :=
  inv.terms.find?
    (fun t => decide (t.kind = TKind.iface) && decide (t.device = some dname)
      && decide (t.name = some iname))

/-- Embeds `trace_from_interface` (cables.py:389-463). -/
def traceFromInterface (inv : Inventory) (dname iname : String)
    (maxDepth : Int) : TraceTreeResult :=
  match findInterface inv dname iname with
  | none => TraceTreeResult.interfaceNotFound iname dname
  | some t =>
    match t.cable with
    | none =>
      TraceTreeResult.noCable
        ("Interface " ++ iname ++ " on device " ++ dname ++
          " has no cable connected")
        (TreeNode.node (some dname) (some iname) "interface" none none [])
    | some _ =>
      match (buildTreeNode inv t [] 0 maxDepth).1 with
      | none => TraceTreeResult.exceptionErr
      | some tree =>
        TraceTreeResult.ok tree dname iname (countNodes tree)
          (collectCables tree).dedup.length maxDepth

/-! ## `get_devices` (devices.py:39-135) -/

/-- A device record as seen by the devices tool. -/
structure NBDevice where
  devId : Nat
  name : String
  site : Option String
  role : Option String
  device_type : Option String
  rack : Option String
deriving DecidableEq, Repr

/-- The per-device info dict built at devices.py:85-92 (records without
custom fields). -/
structure DeviceInfo where
  devId : Nat
  name : String
  slug : Option String
  dtype : Option String
  role : Option String
  rack : Option String
deriving DecidableEq, Repr

/-- devices.py:85-92: `slug` is read with `getattr(device, "slug", None)`
and device records carry no slug, so it is always `None`. -/
def mkDeviceInfo (d : NBDevice) : DeviceInfo :=
  ⟨d.devId, d.name, none, d.device_type, d.role, d.rack⟩

/-- The NetBox-side filtering performed by
`nb.dcim.devices.filter(**device_filters)`: a filter key is added only for
parameters that are truthy (devices.py:69-74). -/
def matchesFilters (site role dtype : Option String) (d : NBDevice) : Bool :=
  (match site with
   | none => true
   | some s => decide (d.site = some s)) &&
  (match role with
   | none => true
   | some r => decide (d.role = some r)) &&
  (match dtype with
   | none => true
   | some ty => decide (d.device_type = some ty))

/-- The possible returns of `get_devices`, connection available. -/
inductive DevicesResult where
  | limitError
  | ok (devices : List DeviceInfo) (totalCount : Nat) (limit : Option Int)
      (truncated : Bool)
deriving DecidableEq, Repr

/-- Python truthiness of the optional `limit` argument:
falsy when `None` or `0`. -/
def limitTruthy : Option Int → Bool
  | none => false
  | some n => decide (n ≠ 0)

/-- Embeds `get_devices` (devices.py:39-135): note that both the range
validation (line 64) and the truncation slice (lines 79-80) are guarded by
`if limit:`, i.e. by truthiness of the limit. -/
def getDevices (devs : List NBDevice) (site role dtype : Option String)
    (limit : Option Int) : DevicesResult :=
  if limitTruthy limit &&
      ((limit.getD 0) < 1 || (limit.getD 0) > 1000) then
    DevicesResult.limitError
  else
    let filtered := devs.filter (matchesFilters site role dtype)
    let sliced :=
      if limitTruthy limit then filtered.take (limit.getD 0).toNat else filtered
    DevicesResult.ok (sliced.map mkDeviceInfo) (sliced.map mkDeviceInfo).length
      limit
      (if limitTruthy limit then decide ((sliced.length : Int) = limit.getD 0)
       else false)

/-! ## Derived notions used by the theorems -/

/-- The identity key of a tree node, reconstructed from the fields the
node stores (cf. `termId`). -/
def nodeId : TreeNode → String
  | TreeNode.node d i _ _ _ _ => d.getD "unknown" ++ "_" ++ i.getD "unknown"

mutual

/-- All node identities of a tree, in preorder. -/
def treeIds : TreeNode → List String
  | TreeNode.node d i nt c dep cs =>
    nodeId (TreeNode.node d i nt c dep cs) :: treeIdsL cs

/-- Concatenation of `treeIds` over a child list. -/
def treeIdsL : List TreeNode → List String
  | [] => []
  | c :: rest => treeIds c ++ treeIdsL rest

end

/-- Inventory well-formedness used where the Python string formatting
distinguishes a null `name` from a missing one: every classified
termination record carries a name (true of every real NetBox record). -/
def nameWF (inv : Inventory) : Prop :=
  ∀ u ∈ inv.terms, u.kind ≠ TKind.unknown → u.name.isSome

/-! ## Concrete inventories for counterexamples and witnesses -/

/-- A single device with no interfaces at all. -/
def invC1 : Inventory := ⟨["D"], [], []⟩

/-- Two devices joined by one straight cable:
interface `eth0` on `X` to interface `eth0` on `Y`. -/
def invC2 : Inventory :=
  ⟨["X", "Y"],
   [⟨1, TKind.iface, some "X", some "eth0", some 1, none, []⟩,
    ⟨2, TKind.iface, some "Y", some "eth0", some 1, none, []⟩],
   [⟨1, [1], [2]⟩]⟩

/-- An inventory on which the bidirectional search is asymmetric: one
fan-out cable `{A} — {H, PP.p1}` and one fan-out cable `{B} — {PP.p2, F}`
where `PP` is a patch-panel device (ports only, no interfaces).  Nothing
physically connects the two cables. -/
def invC3 : Inventory :=
  ⟨["A", "H", "PP", "B", "F"],
   [⟨1, TKind.iface, some "A", some "e0", some 1, none, []⟩,
    ⟨2, TKind.iface, some "H", some "e0", some 1, none, []⟩,
    ⟨3, TKind.front, some "PP", some "p1", some 1, none, []⟩,
    ⟨4, TKind.iface, some "B", some "e0", some 2, none, []⟩,
    ⟨5, TKind.iface, some "F", some "e0", some 2, none, []⟩,
    ⟨6, TKind.front, some "PP", some "p2", some 2, none, []⟩],
   [⟨1, [1], [2, 3]⟩, ⟨2, [4], [6, 5]⟩]⟩

/-- A wiring cycle through two patch panels: `PP1.f1 —cable1— PP2.f1`,
`PP2.f1 ↔ PP2.r1` internally, `PP2.r1 —cable2— PP1.r1`,
`PP1.r1 ↔ PP1.f1` internally. -/
def invC4 : Inventory :=
  ⟨["PP1", "PP2"],
   [⟨1, TKind.front, some "PP1", some "f1", some 1, some 2, []⟩,
    ⟨2, TKind.rear, some "PP1", some "r1", some 2, none, [1]⟩,
    ⟨3, TKind.front, some "PP2", some "f1", some 1, some 4, []⟩,
    ⟨4, TKind.rear, some "PP2", some "r1", some 2, none, [3]⟩],
   [⟨1, [1], [3]⟩, ⟨2, [2], [4]⟩]⟩

/-- The starting front port of `invC4`. -/
def termC4 : TermRec := ⟨1, TKind.front, some "PP1", some "f1", some 1, some 2, []⟩

/-- The tree `_build_tree_node` produces from `termC4` in `invC4`. -/
def treeC4 : TreeNode :=
  TreeNode.node (some "PP1") (some "f1") "interface" (some 1) (some 0)
    [TreeNode.node (some "PP2") (some "f1") "interface" (some 1) (some 1)
      [TreeNode.node (some "PP1") (some "r1") "interface" (some 2) (some 2)
        [TreeNode.node (some "PP2") (some "r1") "interface" (some 2) (some 3) []]]]

/-- A cable whose A-side termination group is the empty list while its
B-side holds two interfaces. -/
def termC5a : TermRec := ⟨1, TKind.iface, some "X", some "e0", some 1, none, []⟩

/-- The other interface on the same empty-A-side cable. -/
def termC5b : TermRec := ⟨2, TKind.iface, some "Y", some "e0", some 1, none, []⟩

/-- Inventory for the empty-A-side cable. -/
def invC5 : Inventory := ⟨["X", "Y"], [termC5a, termC5b], [⟨1, [], [1, 2]⟩]⟩

/-- One device with a single uncabled interface. -/
def invC7 : Inventory :=
  ⟨["X"], [⟨1, TKind.iface, some "X", some "e0", none, none, []⟩], []⟩

/-- Two existing devices with no cabling at all. -/
def invC8 : Inventory := ⟨["A", "B"], [], []⟩

/-! ## Helper lemmas -/

theorem findTerm_mem {inv : Inventory} {i : Nat} {u : TermRec}
    (h : findTerm inv i = some u) : u ∈ inv.terms :=
  List.mem_of_find?_eq_some h

theorem resolveTerms_mem {inv : Inventory} {ids : List Nat} {u : TermRec} :
    u ∈ resolveTerms inv ids ↔ ∃ i ∈ ids, findTerm inv i = some u := by
  induction ids with
  | nil => simp [resolveTerms]
  | cons i rest ih =>
    simp only [resolveTerms]
    cases h : findTerm inv i with
    | none =>
      simp only [ih, List.mem_cons]
      constructor
      · rintro ⟨j, hj, hf⟩; exact ⟨j, Or.inr hj, hf⟩
      · rintro ⟨j, hj | hj, hf⟩
        · subst hj; rw [h] at hf; exact absurd hf (by simp)
        · exact ⟨j, hj, hf⟩
    | some t =>
      simp only [List.mem_cons, ih]
      constructor
      · rintro (rfl | ⟨j, hj, hf⟩)
        · exact ⟨i, Or.inl rfl, h⟩
        · exact ⟨j, Or.inr hj, hf⟩
      · rintro ⟨j, rfl | hj, hf⟩
        · rw [h] at hf; exact Or.inl (Option.some_injective _ hf).symm
        · exact Or.inr ⟨j, hj, hf⟩

theorem resolveTerms_subset {inv : Inventory} {ids : List Nat} {u : TermRec}
    (h : u ∈ resolveTerms inv ids) : u ∈ inv.terms := by
  obtain ⟨i, _, hf⟩ := resolveTerms_mem.mp h
  exact findTerm_mem hf

theorem connected_subset {inv : Inventory} {t u : TermRec}
    (h : u ∈ getConnectedTerminations inv t) : u ∈ inv.terms := by
  rcases ht : t.cable with _ | cid
  · simp only [getConnectedTerminations, ht, List.not_mem_nil] at h
  · rcases hc : findCable inv cid with _ | c
    · simp only [getConnectedTerminations, ht, hc, List.not_mem_nil] at h
    · simp only [getConnectedTerminations, ht, hc] at h
      by_cases ha : c.a_terminations = []
      · rw [if_pos ha] at h; simp at h
      · rw [if_neg ha] at h
        exact resolveTerms_subset (List.mem_of_mem_filter h)

theorem portPairings_mem {inv : Inventory} {u v : TermRec} :
    v ∈ portPairings inv u ↔
      (u.kind = TKind.front ∧
        ∃ rid, u.rearPort = some rid ∧ findTerm inv rid = some v) ∨
      (u.kind = TKind.rear ∧ ∃ fid ∈ u.frontPorts, findTerm inv fid = some v) := by
  by_cases hf : u.kind = TKind.front ∧ u.rearPort.isSome
  · obtain ⟨hk, hr⟩ := hf
    rcases hrid : u.rearPort with _ | rid
    · rw [hrid] at hr; simp at hr
    · rcases hft : findTerm inv rid with _ | rp
      · simp [portPairings, hk, hrid, hft]
      · simp [portPairings, hk, hrid, hft, eq_comm]
  · by_cases hr : u.kind = TKind.rear ∧ u.frontPorts ≠ []
    · obtain ⟨hk, hfp⟩ := hr
      simp [portPairings, hk, hfp, resolveTerms_mem]
    · unfold portPairings
      rw [if_neg hf, if_neg hr]
      simp only [List.not_mem_nil, false_iff]
      rintro (⟨hk, rid, hrid, _⟩ | ⟨hk, i, hi, _⟩)
      · exact hf ⟨hk, by rw [hrid]; simp⟩
      · exact hr ⟨hk, by intro he; rw [he] at hi; exact List.not_mem_nil _ hi⟩

theorem portPairings_subset {inv : Inventory} {u v : TermRec}
    (h : v ∈ portPairings inv u) : v ∈ inv.terms := by
  rcases portPairings_mem.mp h with ⟨_, _, _, hf⟩ | ⟨_, _, _, hf⟩ <;>
    exact findTerm_mem hf

theorem nextSeq_mem {inv : Inventory} {us : List TermRec} {v : TermRec} :
    v ∈ nextSeq inv us ↔ v ∈ us ∨ ∃ u ∈ us, v ∈ portPairings inv u := by
  induction us with
  | nil => simp [nextSeq]
  | cons u rest ih =>
    simp only [nextSeq, List.mem_cons, List.mem_append, ih]
    constructor
    · rintro (rfl | hp | hrest | ⟨w, hw, hp⟩)
      · exact Or.inl (Or.inl rfl)
      · exact Or.inr ⟨u, Or.inl rfl, hp⟩
      · exact Or.inl (Or.inr hrest)
      · exact Or.inr ⟨w, Or.inr hw, hp⟩
    · rintro ((rfl | hrest) | ⟨w, rfl | hw, hp⟩)
      · exact Or.inl rfl
      · exact Or.inr (Or.inr (Or.inl hrest))
      · exact Or.inr (Or.inl hp)
      · exact Or.inr (Or.inr (Or.inr ⟨w, hw, hp⟩))

/-! ## Claim C5 -/

/-- Claim C5, counterexample: the claim states that whenever `t` has a
cable, `_get_connected_terminations(t)` returns every other termination of
the cable's A-side and B-side groups.  On a cable whose A-side group is the
empty list the function returns `[]` even though another termination
(`termC5b`) sits on the same cable. -/
theorem connected_terminations_empty_a_side_counterexample :
    getConnectedTerminations invC5 termC5a = [] ∧
    termC5a.cable = some 1 ∧
    findCable invC5 1 = some ⟨1, [], [1, 2]⟩ ∧
    findTerm invC5 2 = some termC5b ∧
    termC5b ≠ termC5a :=
  ⟨rfl, rfl, rfl, rfl, by decide⟩

/-- Claim C5, amended: `_get_connected_terminations(t)` returns the empty
list when `t` has no cable, and otherwise contains exactly the other
terminations of the cable's A-side and B-side groups **provided the A-side
group is nonempty**; when the A-side list is empty it returns `[]`
regardless of the B-side members. -/
theorem connected_terminations_spec (inv : Inventory) (t u : TermRec) :
    u ∈ getConnectedTerminations inv t ↔
      ∃ cid, t.cable = some cid ∧ ∃ c, findCable inv cid = some c ∧
        c.a_terminations ≠ [] ∧ u ≠ t ∧
        ∃ i ∈ c.a_terminations ++ c.b_terminations, findTerm inv i = some u := by
  rcases ht : t.cable with _ | cid
  · simp [getConnectedTerminations, ht]
  · rcases hc : findCable inv cid with _ | c
    · simp [getConnectedTerminations, ht, hc]
    · by_cases ha : c.a_terminations = []
      · simp [getConnectedTerminations, ht, hc, ha]
      · have hL : u ∈ getConnectedTerminations inv t ↔
            ((∃ i ∈ c.a_terminations ++ c.b_terminations,
              findTerm inv i = some u) ∧ u ≠ t) := by
          simp [getConnectedTerminations, ht, hc, if_neg ha, List.mem_filter,
            resolveTerms_mem]
        rw [hL]
        constructor
        · rintro ⟨⟨i, hi, hfi⟩, hne⟩
          exact ⟨cid, rfl, c, hc, ha, hne, i, hi, hfi⟩
        · rintro ⟨cid', hcid, c', hc', _, hne, i, hi, hfi⟩
          cases hcid
          rw [hc] at hc'
          cases hc'
          exact ⟨⟨i, hi, hfi⟩, hne⟩

/-! ## Claim C6 -/

/-- Claim C6: `_get_next_terminations(t)` consists of exactly the
connected terminations of `t` together with, for each connected front port
with a paired rear port, that rear port, and for each connected rear port
with paired front ports, all those front ports. -/
theorem next_terminations_spec (inv : Inventory) (t v : TermRec) :
    v ∈ getNextTerminations inv t ↔
      v ∈ getConnectedTerminations inv t ∨
      (∃ u ∈ getConnectedTerminations inv t, u.kind = TKind.front ∧
        ∃ rid, u.rearPort = some rid ∧ findTerm inv rid = some v) ∨
      (∃ u ∈ getConnectedTerminations inv t, u.kind = TKind.rear ∧
        ∃ fid ∈ u.frontPorts, findTerm inv fid = some v) := by
  rcases ht : t.cable with _ | cid
  · simp [getNextTerminations, getConnectedTerminations, ht]
  · have hi : t.cable.isSome = true := by rw [ht]; rfl
    simp only [getNextTerminations, hi, if_pos, nextSeq_mem, portPairings_mem]
    constructor
    · rintro (hc | ⟨u, hu, hp | hp⟩)
      · exact Or.inl hc
      · exact Or.inr (Or.inl ⟨u, hu, hp⟩)
      · exact Or.inr (Or.inr ⟨u, hu, hp⟩)
    · rintro (hc | ⟨u, hu, hp⟩ | ⟨u, hu, hp⟩)
      · exact Or.inl hc
      · exact Or.inr ⟨u, hu, Or.inl hp⟩
      · exact Or.inr ⟨u, hu, Or.inr hp⟩

/-! ## Claim C1 -/

/-- Claim C1, counterexample: `D` resolves in `invC1`, yet
`trace_devices_connection(D, D)` returns the no-path error dict (with both
explored counts 1), not a successful zero-hop path. -/
theorem trace_self_returns_error_counterexample :
    invC1.devices.contains "D" = true ∧
    traceDevicesConnection invC1 "D" "D" 10 = TraceResult.noPathFound 1 1 :=
  ⟨rfl, rfl⟩

/-- Claim C1, amended: `trace_devices_connection(D, D)` does not return a
zero-hop path.  For a resolving device with no cabled interfaces it
returns the no-path error result with both explored counts equal to 1
(the self-device is counted on each side), for any positive iteration
budget. -/
theorem trace_self_isolated_device_no_path (inv : Inventory) (D : String)
    (maxIter : Int) (hIter : 1 ≤ maxIter)
    (hD : inv.devices.contains D = true)
    (hifs : invInterfaces inv D = []) :
    traceDevicesConnection inv D D maxIter = TraceResult.noPathFound 1 1 := by
  obtain ⟨k, hk⟩ : ∃ k, maxIter.toNat = k + 1 :=
    ⟨maxIter.toNat - 1, by omega⟩
  have hmem : D ∈ inv.devices := by simpa using hD
  simp only [traceDevicesConnection, hD, Bool.true_eq_false, not_true_eq_false,
    if_false, hk]
  simp [traceLoop, expandFrontier, expandFrontierAux, expandDevice, lookupA,
    hmem, hifs, processInterfaces, findIntersection, setA]

/-- Witness for the amended C1 theorem at the concrete one-device
inventory. -/
theorem trace_self_isolated_device_no_path_witness :
    (1 : Int) ≤ 10 ∧ invC1.devices.contains "D" = true ∧
    invInterfaces invC1 "D" = [] ∧
    traceDevicesConnection invC1 "D" "D" 10 = TraceResult.noPathFound 1 1 :=
  ⟨by norm_num, rfl, rfl,
    trace_self_isolated_device_no_path invC1 "D" 10 (by norm_num) rfl rfl⟩

/-! ## Claim C2 -/

/-- Claim C2: contrary to both the spec and the tool's own docstring, a
single straight cable joining `X.eth0` to `Y.eth0` yields no path at all:
`_expand_frontier` expands each connected termination once more through
`_get_next_terminations`, which bounces straight back to the visited
origin device, so the search exhausts and returns the no-path error with
one device explored per side.  (The claim expects a success with
`total_hops = 1`.) -/
theorem trace_straight_cable_returns_no_path :
    findCable invC2 1 = some ⟨1, [1], [2]⟩ ∧
    (findTerm invC2 1).map (fun t => t.device) = some (some "X") ∧
    (findTerm invC2 2).map (fun t => t.device) = some (some "Y") ∧
    traceDevicesConnection invC2 "X" "Y" 10 = TraceResult.noPathFound 1 1 :=
  ⟨rfl, rfl, rfl, rfl⟩

/-! ## Claim C3 -/

/-- Claim C3, counterexample: on `invC3`, searching `A → B` finds a
(spurious) path with `total_hops = 2`, while the swapped search `B → A`
exhausts and returns an error carrying no `total_hops` at all — so
`total_hops` is not symmetric under swapping source and target. -/
theorem trace_total_hops_asymmetric_counterexample :
    totalHopsOf (traceDevicesConnection invC3 "A" "B" 10) = some 2 ∧
    totalHopsOf (traceDevicesConnection invC3 "B" "A" 10) = none :=
  ⟨rfl, rfl⟩

/-- Claim C3, amended: whole-search symmetry fails (one direction can
find a path while the other exhausts), and only the final path-assembly
step is symmetric: when a meeting device is recorded in both visited maps,
`_build_complete_path` produces the same `total_hops` after the two maps
are swapped. -/
theorem build_complete_path_total_hops_symm (m : String)
    (sv tv : List (String × List PathHop)) (r r' : CompletePath)
    (h : buildCompletePath m sv tv = some r)
    (h' : buildCompletePath m tv sv = some r') :
    r.totalHops = r'.totalHops := by
  rcases hs : lookupA sv m with _ | sp
  · simp [buildCompletePath, hs] at h
  · rcases ht : lookupA tv m with _ | tp
    · simp [buildCompletePath, hs, ht] at h
    · simp only [buildCompletePath, hs, ht] at h h'
      obtain rfl := Option.some_injective _ h
      obtain rfl := Option.some_injective _ h'
      show (sp.length : Int) + (tp.length : Int) - 1 =
        (tp.length : Int) + (sp.length : Int) - 1
      omega

/-- Witness for the amended C3 theorem at concrete visited maps. -/
theorem build_complete_path_total_hops_symm_witness :
    CompletePath.totalHops ⟨[], "M", 0, 1, 0⟩ =
      CompletePath.totalHops ⟨[⟨"A", none, 1, "M", none⟩], "M", 1, 0, 0⟩ :=
  build_complete_path_total_hops_symm "M" [("M", [])]
    [("M", [⟨"A", none, 1, "M", none⟩])] _ _ rfl rfl

/-! ## Claim C7 -/

/-- Claim C7: for every existing interface with no cable attached,
`trace_from_interface` returns the explanatory-message result with a
single-node tree (empty children) and no error. -/
theorem trace_from_interface_uncabled (inv : Inventory) (dname iname : String)
    (maxDepth : Int) (t : TermRec)
    (hfind : findInterface inv dname iname = some t)
    (hcable : t.cable = none) :
    traceFromInterface inv dname iname maxDepth =
      TraceTreeResult.noCable
        ("Interface " ++ iname ++ " on device " ++ dname ++
          " has no cable connected")
        (TreeNode.node (some dname) (some iname) "interface" none none []) := by
  simp only [traceFromInterface, hfind, hcable]

/-- Witness for the C7 theorem at a concrete uncabled interface. -/
theorem trace_from_interface_uncabled_witness :
    findInterface invC7 "X" "e0" = some ⟨1, TKind.iface, some "X", some "e0", none, none, []⟩ ∧
    (⟨1, TKind.iface, some "X", some "e0", none, none, []⟩ : TermRec).cable = none ∧
    traceFromInterface invC7 "X" "e0" 10 =
      TraceTreeResult.noCable
        ("Interface " ++ "e0" ++ " on device " ++ "X" ++
          " has no cable connected")
        (TreeNode.node (some "X") (some "e0") "interface" none none []) :=
  ⟨rfl, rfl,
    trace_from_interface_uncabled invC7 "X" "e0" 10
      ⟨1, TKind.iface, some "X", some "e0", none, none, []⟩ rfl rfl⟩

/-! ## Claim C9 -/

/-- Claim C9: for every existing interface that has a cable attached,
calling `trace_from_interface` with a non-positive `max_depth` returns the
top-level error result: `_build_tree_node` prunes immediately (no root
node), and the metadata computation on `None` raises, landing in the
`except` branch. -/
theorem trace_from_interface_nonpositive_depth (inv : Inventory)
    (dname iname : String) (maxDepth : Int) (t : TermRec)
    (hfind : findInterface inv dname iname = some t)
    (hcable : t.cable.isSome = true)
    (hdepth : maxDepth ≤ 0) :
    traceFromInterface inv dname iname maxDepth = TraceTreeResult.exceptionErr := by
  rcases hc : t.cable with _ | cid
  · rw [hc] at hcable; simp at hcable
  · have hfuel : (maxDepth - ((0 : Nat) : Int)).toNat = 0 := by omega
    simp only [traceFromInterface, hfind, hc, buildTreeNode, hfuel,
      buildTreeNodeF]

/-- Witness for the C9 theorem: the cabled interface `X.eth0` of `invC2`
with `max_depth = 0`. -/
theorem trace_from_interface_nonpositive_depth_witness :
    findInterface invC2 "X" "eth0" = some ⟨1, TKind.iface, some "X", some "eth0", some 1, none, []⟩ ∧
    (⟨1, TKind.iface, some "X", some "eth0", some 1, none, []⟩ : TermRec).cable.isSome = true ∧
    (0 : Int) ≤ 0 ∧
    traceFromInterface invC2 "X" "eth0" 0 = TraceTreeResult.exceptionErr :=
  ⟨rfl, rfl, le_refl 0,
    trace_from_interface_nonpositive_depth invC2 "X" "eth0" 0
      ⟨1, TKind.iface, some "X", some "eth0", some 1, none, []⟩ rfl rfl (le_refl 0)⟩

/-! ## Claim C10 -/

/-- Claim C10: `get_devices` with `limit = 0` bypasses the
`"Limit must be between 1 and 1000"` validation (which is guarded by
Python truthiness of `limit`) and also disables the truncation slice, so
every matching device is returned and `truncated` is reported `False`. -/
theorem get_devices_limit_zero (devs : List NBDevice)
    (site role dtype : Option String) :
    getDevices devs site role dtype (some 0) =
      DevicesResult.ok
        ((devs.filter (matchesFilters site role dtype)).map mkDeviceInfo)
        ((devs.filter (matchesFilters site role dtype)).map mkDeviceInfo).length
        (some 0) false := by
  simp [getDevices, limitTruthy]

/-! ## Claim C8 -/

/-- Claim C8, counterexample: both devices exist and are disconnected, no
path is found within `max_iterations = 0`, yet the returned error carries
`source_devices_explored = 0` and `target_devices_explored = 0` — both
counts zero, contradicting the claim that at least one is nonzero. -/
theorem trace_no_path_zero_counts_counterexample :
    invC8.devices.contains "A" = true ∧
    invC8.devices.contains "B" = true ∧
    traceDevicesConnection invC8 "A" "B" 0 = TraceResult.noPathFound 0 0 ∧
    ¬ (0 < (0 : Nat) ∨ 0 < (0 : Nat)) :=
  ⟨rfl, rfl, rfl, by decide⟩

theorem discoverTerm_visited (dname : String) (ifname : Option String)
    (cid : Nat) (basePath : List PathHop) (nt : TermRec) (st : SearchState)
    (acc : List String) :
    (discoverTerm dname ifname cid basePath nt st acc).1.visited = st.visited := by
  rcases hd : attrDevice nt with _ | nd
  · simp [discoverTerm, hd]
  · by_cases h : (lookupA st.visited nd).isSome <;> simp [discoverTerm, hd, h]

theorem discoverList_visited (dname : String) (ifname : Option String)
    (cid : Nat) (basePath : List PathHop) :
    ∀ (nts : List TermRec) (st : SearchState) (acc : List String),
      (discoverList dname ifname cid basePath nts st acc).1.visited = st.visited := by
  intro nts
  induction nts with
  | nil => intro st acc; rfl
  | cons nt rest ih =>
    intro st acc
    simp only [discoverList]
    rw [ih, discoverTerm_visited]

theorem processConnected_visited (inv : Inventory) (dname : String)
    (ifname : Option String) (cid : Nat) (basePath : List PathHop) :
    ∀ (terms : List TermRec) (st : SearchState) (acc : List String),
      (processConnected inv dname ifname cid basePath terms st acc).1.visited =
        st.visited := by
  intro terms
  induction terms with
  | nil => intro st acc; rfl
  | cons u rest ih =>
    intro st acc
    simp only [processConnected]
    rw [ih, discoverList_visited]

theorem processInterfaces_visited (inv : Inventory) (dname : String)
    (basePath : List PathHop) :
    ∀ (ifs : List TermRec) (st : SearchState) (acc : List String),
      (processInterfaces inv dname basePath ifs st acc).1.visited = st.visited := by
  intro ifs
  induction ifs with
  | nil => intro st acc; rfl
  | cons i rest ih =>
    intro st acc
    rcases hc : i.cable with _ | cid
    · simp only [processInterfaces, hc]
      exact ih st acc
    · simp only [processInterfaces, hc]
      rw [ih, processConnected_visited]

theorem setA_length_le {α : Type} (m : List (String × α)) (k : String) (v : α) :
    m.length ≤ (setA m k v).length := by
  induction m with
  | nil => simp [setA]
  | cons p rest ih =>
    simp only [setA]
    by_cases h : p.1 = k
    · rw [if_pos h]; simp
    · rw [if_neg h]
      simpa using ih

theorem expandDevice_visited_le (inv : Inventory) (d : String)
    (st : SearchState) (acc : List String) :
    st.visited.length ≤ ((expandDevice inv d st acc).1).visited.length := by
  by_cases h1 : (lookupA st.visited d).isSome
  · simp [expandDevice, h1]
  · by_cases h2 : inv.devices.contains d
    · simp only [expandDevice, h1, if_false, h2, if_true, Bool.false_eq_true]
      rw [processInterfaces_visited]
      exact setA_length_le _ _ _
    · have h2m : ¬ d ∈ inv.devices := by simpa using h2
      simp [expandDevice, h1, h2m]

theorem expandFrontierAux_visited_le (inv : Inventory) :
    ∀ (ds : List String) (st : SearchState) (acc : List String),
      st.visited.length ≤ ((expandFrontierAux inv ds st acc).1).visited.length := by
  intro ds
  induction ds with
  | nil => intro st acc; exact le_refl _
  | cons d rest ih =>
    intro st acc
    simp only [expandFrontierAux]
    exact le_trans (expandDevice_visited_le inv d st acc) (ih _ _)

theorem expandFrontier_visited_le (inv : Inventory) (ds : List String)
    (st : SearchState) :
    st.visited.length ≤ ((expandFrontier inv ds st).2).visited.length := by
  simp only [expandFrontier]
  exact expandFrontierAux_visited_le inv ds st []

theorem traceLoop_noPath_counts (inv : Inventory) :
    ∀ (fuel : Nat) (sF tF : List String) (sSt tSt : SearchState)
      (se te : Nat),
      traceLoop inv fuel sF tF sSt tSt = TraceResult.noPathFound se te →
      sSt.visited.length ≤ se := by
  intro fuel
  induction fuel with
  | zero =>
    intro sF tF sSt tSt se te h
    simp only [traceLoop, TraceResult.noPathFound.injEq] at h
    omega
  | succ k ih =>
    intro sF tF sSt tSt se te h
    simp only [traceLoop] at h
    rcases h1 : findIntersection (expandFrontier inv sF sSt).1 tSt.visited
      with _ | m
    · simp only [h1] at h
      rcases h2 : findIntersection (expandFrontier inv tF tSt).1
        (expandFrontier inv sF sSt).2.visited with _ | m
      · simp only [h2] at h
        by_cases h3 : (expandFrontier inv sF sSt).1.isEmpty &&
            (expandFrontier inv tF tSt).1.isEmpty
        · rw [if_pos h3] at h
          have := expandFrontier_visited_le inv sF sSt
          simp only [TraceResult.noPathFound.injEq] at h
          omega
        · rw [if_neg h3] at h
          exact le_trans (expandFrontier_visited_le inv sF sSt) (ih _ _ _ _ _ _ h)
      · simp only [h2] at h
        rcases h4 : buildCompletePath m (expandFrontier inv sF sSt).2.visited
          (expandFrontier inv tF tSt).2.visited with _ | r
        · simp only [h4] at h
          cases h
        · simp only [h4, pathResultOf] at h
          cases h
    · simp only [h1] at h
      rcases h4 : buildCompletePath m (expandFrontier inv sF sSt).2.visited
        tSt.visited with _ | r
      · simp only [h4] at h
        cases h
      · simp only [h4, pathResultOf] at h
        cases h

/-- Claim C8, amended: whenever both devices resolve, `max_iterations ≥ 1`
and the search ends in the no-path error, the reported
`source_devices_explored` count is at least 1 (the source device itself is
always expanded in the first iteration). -/
theorem trace_no_path_source_explored_positive (inv : Inventory)
    (s t : String) (maxIter : Int) (se te : Nat)
    (hs : inv.devices.contains s = true)
    (ht : inv.devices.contains t = true)
    (hIter : 1 ≤ maxIter)
    (h : traceDevicesConnection inv s t maxIter = TraceResult.noPathFound se te) :
    1 ≤ se := by
  obtain ⟨k, hk⟩ : ∃ k, maxIter.toNat = k + 1 :=
    ⟨maxIter.toNat - 1, by omega⟩
  simp only [traceDevicesConnection, hs, ht, Bool.true_eq_false,
    not_true_eq_false, if_false, hk] at h
  have hvis1 :
      ((expandFrontier inv [s] ⟨[], [(s, [])]⟩).2).visited.length = 1 := by
    have haux : expandFrontierAux inv [s] ⟨[], [(s, [])]⟩ [] =
        expandDevice inv s ⟨[], [(s, [])]⟩ [] := rfl
    simp only [expandFrontier, haux]
    simp only [expandDevice, lookupA, Option.isSome_none, Bool.false_eq_true,
      if_false, hs, if_true]
    rw [processInterfaces_visited]
    rfl
  simp only [traceLoop] at h
  rcases h1 : findIntersection (expandFrontier inv [s] ⟨[], [(s, [])]⟩).1
      ([] : List (String × List PathHop)) with _ | m
  · simp only [h1] at h
    rcases h2 : findIntersection (expandFrontier inv [t] ⟨[], [(t, [])]⟩).1
        (expandFrontier inv [s] ⟨[], [(s, [])]⟩).2.visited with _ | m
    · simp only [h2] at h
      by_cases h3 : (expandFrontier inv [s] ⟨[], [(s, [])]⟩).1.isEmpty &&
          (expandFrontier inv [t] ⟨[], [(t, [])]⟩).1.isEmpty
      · rw [if_pos h3] at h
        simp only [TraceResult.noPathFound.injEq] at h
        omega
      · rw [if_neg h3] at h
        have := traceLoop_noPath_counts inv k _ _ _ _ _ _ h
        omega
    · simp only [h2] at h
      rcases h4 : buildCompletePath m
          (expandFrontier inv [s] ⟨[], [(s, [])]⟩).2.visited
          (expandFrontier inv [t] ⟨[], [(t, [])]⟩).2.visited with _ | r
      · simp only [h4] at h
        cases h
      · simp only [h4, pathResultOf] at h
        cases h
  · simp only [h1] at h
    rcases h4 : buildCompletePath m
        (expandFrontier inv [s] ⟨[], [(s, [])]⟩).2.visited
        ([] : List (String × List PathHop)) with _ | r
    · simp only [h4] at h
      cases h
    · simp only [h4, pathResultOf] at h
      cases h

/-- Witness for the amended C8 theorem: two cabled-but-disconnected
devices (`invC2` with the straight cable makes `X` and `Y` mutually
unreachable under the buggy expansion, and even an empty-cabling inventory
works); here the concrete `invC8` with `max_iterations = 10`. -/
theorem trace_no_path_source_explored_positive_witness :
    invC8.devices.contains "A" = true ∧
    invC8.devices.contains "B" = true ∧
    (1 : Int) ≤ 10 ∧
    traceDevicesConnection invC8 "A" "B" 10 = TraceResult.noPathFound 1 1 ∧
    1 ≤ 1 :=
  ⟨rfl, rfl, by norm_num, rfl,
    trace_no_path_source_explored_positive invC8 "A" "B" 10 1 1 rfl rfl
      (by norm_num) rfl⟩

theorem nextSeq_subset {inv : Inventory} {us : List TermRec} {u : TermRec}
    (h : u ∈ nextSeq inv us) : u ∈ us ∨ u ∈ inv.terms := by
  rcases nextSeq_mem.mp h with hu | ⟨w, _, hp⟩
  · exact Or.inl hu
  · exact Or.inr (portPairings_subset hp)

theorem nodeId_termId (t : TermRec)
    (h : t.kind ≠ TKind.unknown → t.name.isSome) :
    (attrDevice t).getD "unknown" ++ "_" ++ (attrName t).getD "unknown" =
      termId t := by
  by_cases hk : t.kind = TKind.unknown
  · simp only [attrDevice, attrName, termId, hk, if_pos]
    rfl
  · have hn := h hk
    rcases hname : t.name with _ | n
    · rw [hname] at hn; simp at hn
    · rcases hd : t.device with _ | dn
      · simp only [attrDevice, attrName, termId, hk, if_neg, hd, hname,
          Option.getD_some, Option.getD_none, ite_false]
      · simp only [attrDevice, attrName, termId, hk, if_neg, hd, hname,
          Option.getD_some, ite_false]

theorem buildKids_spec (inv : Inventory)
    (go : TermRec → List String → Option TreeNode × List String)
    (Q : TermRec → Prop)
    (hgo : ∀ u v, Q u →
      ((go u v).1 = none ∧ (go u v).2 = v) ∨
      (∃ n, (go u v).1 = some n ∧ (go u v).2 = v ++ treeIds n ∧
        (treeIds n).Nodup ∧ ∀ s ∈ treeIds n, s ∉ v)) :
    ∀ (us : List TermRec) (visited : List String) (acc : List TreeNode),
      (∀ u ∈ us, Q u) →
      ∃ cs, buildKids go us visited acc = (acc ++ cs, visited ++ treeIdsL cs) ∧
        (treeIdsL cs).Nodup ∧ ∀ s ∈ treeIdsL cs, s ∉ visited := by
  intro us
  induction us with
  | nil =>
    intro visited acc hQ
    exact ⟨[], by simp [buildKids, treeIdsL], by simp [treeIdsL], by simp [treeIdsL]⟩
  | cons u rest ih =>
    intro visited acc hQ
    rcases hgo u visited (hQ u (by simp)) with ⟨h1, h2⟩ | ⟨n, h1, h2, hnd, hfresh⟩
    · obtain ⟨cs, heq, hnd2, hfr2⟩ :=
        ih visited acc (fun w hw => hQ w (List.mem_cons_of_mem _ hw))
      refine ⟨cs, ?_, hnd2, hfr2⟩
      simp only [buildKids, h1, h2, Option.toList_none, List.append_nil]
      exact heq
    · obtain ⟨cs, heq, hnd2, hfr2⟩ :=
        ih (visited ++ treeIds n) (acc ++ [n])
          (fun w hw => hQ w (List.mem_cons_of_mem _ hw))
      refine ⟨n :: cs, ?_, ?_, ?_⟩
      · simp only [buildKids, h1, h2, Option.toList_some]
        rw [heq]
        simp [treeIdsL, List.append_assoc]
      · simp only [treeIdsL]
        refine List.Nodup.append hnd hnd2 ?_
        intro a ha hacs
        exact hfr2 a hacs (List.mem_append_right _ ha)
      · simp only [treeIdsL, List.mem_append]
        rintro s (hs | hs)
        · exact hfresh s hs
        · intro hv
          exact hfr2 s hs (List.mem_append_left _ hv)

theorem buildF_spec (inv : Inventory) (hWF : nameWF inv) :
    ∀ (fuel : Nat) (t : TermRec) (visited : List String) (depth : Nat),
      (t.kind ≠ TKind.unknown → t.name.isSome) →
      (((buildTreeNodeF inv fuel t visited depth).1 = none ∧
        (buildTreeNodeF inv fuel t visited depth).2 = visited) ∨
       (∃ n, (buildTreeNodeF inv fuel t visited depth).1 = some n ∧
         (buildTreeNodeF inv fuel t visited depth).2 = visited ++ treeIds n ∧
         (treeIds n).Nodup ∧ ∀ s ∈ treeIds n, s ∉ visited)) := by
  intro fuel
  induction fuel with
  | zero =>
    intro t visited depth ht
    exact Or.inl ⟨rfl, rfl⟩
  | succ fuel ih =>
    intro t visited depth ht
    by_cases hv : visited.contains (termId t) = true
    · left
      constructor <;> simp only [buildTreeNodeF, hv, if_true]
    · have hvmem : termId t ∉ visited := by simpa using hv
      have hv2 : visited.contains (termId t) = false := by simpa using hv
      have hQ : ∀ u ∈ nextSeq inv (getConnectedTerminations inv t),
          u.kind ≠ TKind.unknown → u.name.isSome := by
        intro u hu
        rcases nextSeq_subset hu with hu2 | hu2
        · exact hWF u (connected_subset hu2)
        · exact hWF u hu2
      have hgo : ∀ (u : TermRec) (v : List String),
          (u.kind ≠ TKind.unknown → u.name.isSome) →
          (((buildTreeNodeF inv fuel u v (depth + 1)).1 = none ∧
            (buildTreeNodeF inv fuel u v (depth + 1)).2 = v) ∨
           (∃ n, (buildTreeNodeF inv fuel u v (depth + 1)).1 = some n ∧
             (buildTreeNodeF inv fuel u v (depth + 1)).2 = v ++ treeIds n ∧
             (treeIds n).Nodup ∧ ∀ s ∈ treeIds n, s ∉ v)) :=
        fun u v hu => ih u v (depth + 1) hu
      by_cases hc : t.cable.isSome = true
      · obtain ⟨cs, heq, hnd, hfr⟩ :=
          buildKids_spec inv (fun u v => buildTreeNodeF inv fuel u v (depth + 1))
            (fun u => u.kind ≠ TKind.unknown → u.name.isSome) hgo
            (nextSeq inv (getConnectedTerminations inv t))
            (visited ++ [termId t]) [] hQ
        right
        have hnode : nodeId (TreeNode.node (attrDevice t) (attrName t)
            (nodeType t) t.cable (some depth) cs) = termId t := by
          simp only [nodeId]
          exact nodeId_termId t ht
        refine ⟨TreeNode.node (attrDevice t) (attrName t) (nodeType t) t.cable
          (some depth) cs, ?_, ?_, ?_, ?_⟩
        · simp only [buildTreeNodeF, hv2, Bool.false_eq_true, if_false, hc,
            if_true, heq, List.nil_append]
        · simp only [buildTreeNodeF, hv2, Bool.false_eq_true, if_false, hc,
            if_true, heq, treeIds, hnode, List.append_assoc,
            List.singleton_append]
        · simp only [treeIds, hnode]
          refine List.Nodup.cons ?_ hnd
          intro hmem
          exact hfr (termId t) hmem (List.mem_append_right _ (by simp))
        · simp only [treeIds, hnode, List.mem_cons]
          rintro s (rfl | hs)
          · exact hvmem
          · intro hsv
            exact hfr s hs (List.mem_append_left _ hsv)
      · have hc2 : t.cable.isSome = false := by simpa using hc
        right
        have hnode : nodeId (TreeNode.node (attrDevice t) (attrName t)
            (nodeType t) t.cable (some depth) []) = termId t := by
          simp only [nodeId]
          exact nodeId_termId t ht
        refine ⟨TreeNode.node (attrDevice t) (attrName t) (nodeType t) t.cable
          (some depth) [], ?_, ?_, ?_, ?_⟩
        · simp only [buildTreeNodeF, hv2, Bool.false_eq_true, if_false, hc2]
        · simp only [buildTreeNodeF, hv2, Bool.false_eq_true, if_false, hc2,
            treeIds, treeIdsL, hnode, List.append_assoc,
            List.singleton_append]
        · simp [treeIds, treeIdsL]
        · simp only [treeIds, treeIdsL, hnode, List.mem_singleton]
          rintro s rfl
          exact hvmem

/-- Claim C4: for every inventory (cyclic wiring included) and every
starting termination of it, `_build_tree_node` terminates — the embedding
is a total function whose fuel `max_depth - current_depth` mirrors the
source's depth cutoff — and the returned tree contains each termination
identity (device name + port/interface name) at most once, because the
identity is added to the shared `visited` set before any recursion. -/
theorem build_tree_node_identities_nodup (inv : Inventory) (t : TermRec)
    (maxDepth : Int) (n : TreeNode) (hWF : nameWF inv) (ht : t ∈ inv.terms)
    (h : (buildTreeNode inv t [] 0 maxDepth).1 = some n) :
    (treeIds n).Nodup := by
  rcases buildF_spec inv hWF (maxDepth - ((0 : Nat) : Int)).toNat t [] 0
      (hWF t ht) with ⟨h1, _⟩ | ⟨n', h1, _, hnd, _⟩
  · rw [buildTreeNode] at h
    rw [h1] at h
    cases h
  · rw [buildTreeNode] at h
    rw [h1] at h
    cases h
    exact hnd

/-- Witness for the C4 theorem: the cyclic two-panel inventory `invC4`;
the built tree visits all four port identities exactly once and the cycle
is pruned. -/
theorem build_tree_node_identities_nodup_witness :
    (treeIds treeC4).Nodup :=
  build_tree_node_identities_nodup invC4 termC4 10 treeC4
    (by unfold nameWF; decide) (by decide) rfl

end NetboxMCP
